import Mathlib

/-!
Verification of the dither repository's core: the uniform n-bit quantizer,
the nearest-palette quantizer, color-mode parsing, the float-to-byte
conversion, and the option validation performed by `_main`.

Floating-point (`f64`) channel values are modelled by exact rationals `ℚ`;
all the arithmetic the verified claims touch (division by small constants,
floor, ceiling, comparison, min/max, absolute value) is modelled exactly.
Machine bytes (`u8`) are modelled by `Nat`.
-/

namespace Dither

/-- The RGB triplet of `src/color/rgb.rs` (a three-field tuple struct
`RGB(r, g, b)` generic over the channel type). -/
structure RGB (α : Type) where
  r : α
  g : α
  b : α
deriving DecidableEq

-- CGA color constants from `src/color/mod.rs` (module `cga`),
-- as 8-bit RGB triplets.
namespace cga

def BLACK : RGB Nat := ⟨0x00, 0x00, 0x00⟩

def BLUE : RGB Nat := ⟨0x00, 0x00, 0xAA⟩

def GREEN : RGB Nat := ⟨0x00, 0xAA, 0x00⟩

def CYAN : RGB Nat := ⟨0x00, 0xAA, 0xAA⟩

def RED : RGB Nat := ⟨0xAA, 0x00, 0x00⟩

def MAGENTA : RGB Nat := ⟨0xAA, 0x00, 0xAA⟩

def BROWN : RGB Nat := ⟨0xAA, 0x55, 0x00⟩

def LIGHT_GRAY : RGB Nat := ⟨0xAA, 0xAA, 0xAA⟩

def GRAY : RGB Nat := ⟨0x55, 0x55, 0x55⟩

def LIGHT_BLUE : RGB Nat := ⟨0x55, 0x55, 0xFF⟩

def LIGHT_GREEN : RGB Nat := ⟨0x55, 0xFF, 0x55⟩

def LIGHT_CYAN : RGB Nat := ⟨0x55, 0xFF, 0xFF⟩

def LIGHT_RED : RGB Nat := ⟨0xFF, 0x55, 0x55⟩

def LIGHT_MAGENTA : RGB Nat := ⟨0xFF, 0x55, 0xFF⟩

def YELLOW : RGB Nat := ⟨0xFF, 0xFF, 0x55⟩

def WHITE : RGB Nat := ⟨0xFF, 0xFF, 0xFF⟩

end cga

/-- The color mode enum of `src/color/mod.rs` (`color::Mode`).
`customPalette` carries the palette as a list, as in
`CustomPalette(Vec<RGB<u8>>)`; `main.rs` pattern-matches the CGA palette
mode and the custom-palette modes as the two palette-based modes. -/
inductive Mode where
  | singleColor (c : RGB Nat)
  | color
  | blackAndWhite
  | knownPalette (palette : List (RGB Nat)) (nm : String)
  | customPalette (palette : List (RGB Nat))
deriving DecidableEq

/-- `Mode::CGA_PALETTE`: the named 16-color CGA palette, in the order the
source lists it. -/
def Mode.CGA_PALETTE : Mode :=
  .knownPalette
    [cga.BLACK, cga.BLUE, cga.GREEN, cga.CYAN, cga.RED, cga.MAGENTA,
     cga.BROWN, cga.LIGHT_GRAY, cga.GRAY, cga.LIGHT_BLUE, cga.LIGHT_GREEN,
     cga.LIGHT_CYAN, cga.LIGHT_RED, cga.LIGHT_MAGENTA, cga.YELLOW, cga.WHITE]
    "CGA"

/-- `color::Error` of `src/color/mod.rs`: errors while handling the
`--color` option.  `couldNotParsePalette` carries the offending token
(in the source it carries the `ParseIntError` produced by it). -/
inductive ColorError where
  | unknownOption (s : String)
  | badPaletteColor (n : Nat)
  | couldNotParsePalette (s : String)
deriving DecidableEq

/-- The top-level error type of the crate as used by `_main`
(`src/error.rs` is absent from the snapshot; the two constructors below are
the ones `_main` produces, per the spec's §7 error kinds). -/
inductive Error where
  | badBitDepth (n : Nat)
  | incompatibleOptions
deriving DecidableEq

/-- Rust's `str::to_ascii_uppercase`: map ASCII lowercase letters to
uppercase, leaving every other character unchanged (`Char.toUpper` is
exactly the ASCII uppercase map). -/
def to_ascii_uppercase (s : String) : String :=
  ⟨s.data.map Char.toUpper⟩

/-- The `match` body of `Mode::from_str` in `src/color/mod.rs`, applied to
the already-uppercased token `u`; `orig` is the original string used for
the `UnknownOption` payload. -/
def Mode.match_upper (orig u : String) : Except ColorError Mode :=
  match u with
  | "WHITE" => .ok .blackAndWhite
  | "BLACK" => .ok .blackAndWhite
  | "BW" => .ok .blackAndWhite
  | "C" => .ok .color
  | "COLOR" => .ok .color
  | "CGA" => .ok Mode.CGA_PALETTE
  | "BLUE" => .ok (.singleColor cga.BLUE)
  | "GREEN" => .ok (.singleColor cga.GREEN)
  | "CYAN" => .ok (.singleColor cga.CYAN)
  | "RED" => .ok (.singleColor cga.RED)
  | "MAGENTA" => .ok (.singleColor cga.MAGENTA)
  | "BROWN" => .ok (.singleColor cga.BROWN)
  | "LIGHT_GRAY" => .ok (.singleColor cga.LIGHT_GRAY)
  | "GRAY" => .ok (.singleColor cga.GRAY)
  | "LIGHT_BLUE" => .ok (.singleColor cga.LIGHT_BLUE)
  | "LIGHT_GREEN" => .ok (.singleColor cga.LIGHT_GREEN)
  | "LIGHT_CYAN" => .ok (.singleColor cga.LIGHT_CYAN)
  | "LIGHT_RED" => .ok (.singleColor cga.LIGHT_RED)
  | "LIGHT_MAGENTA" => .ok (.singleColor cga.LIGHT_MAGENTA)
  | "YELLOW" => .ok (.singleColor cga.YELLOW)
  | _ => .error (.unknownOption orig)

/-- `Mode::from_str` (`src/color/mod.rs`): uppercase the input, then match
it against the named tokens. -/
def Mode.from_str (s : String) : Except ColorError Mode :=
  Mode.match_upper s (to_ascii_uppercase s)

/-- The closure body returned by `create_quantize_n_bits_func` in
`src/main.rs`: quantize a scalar `x` to `n`-of-256 levels, returning the
quantized value and the signed residual. -/
def quantize_n_bits (n : Nat) (x : ℚ) : ℚ × ℚ :=
  let step_size : ℚ := 256 / (n : ℚ)
  let floor : ℚ := ⌊x / step_size⌋ * step_size
  let floor_rem : ℚ := x - floor
  let ceil : ℚ := ⌈x / step_size⌉ * step_size
  let ceil_rem : ℚ := ceil - x
  if floor_rem < ceil_rem then (max floor 0, floor_rem)
  else (min 255 ceil, -ceil_rem)

/-- `create_quantize_n_bits_func` (`src/main.rs`): reject a bit depth
outside `1..=7` with `BadBitDepth` at construction time, otherwise return
the quantizer closure. -/
def create_quantize_n_bits_func (n : Nat) : Except Error (ℚ → ℚ × ℚ) :=
  if n = 0 ∨ 7 < n then .error (.badBitDepth n)
  else .ok (quantize_n_bits n)

/-- `clamp_f64_to_u8` (`src/main.rs`): values above 255 clamp to 255,
values below 0 clamp to 0, and anything else is cast with `as u8`, which
truncates toward zero (here the value is nonnegative, so it is the floor). -/
def clamp_f64_to_u8 (n : ℚ) : Nat :=
  if 255 < n then 255
  else if n < 0 then 0
  else ⌊n⌋.toNat

/-- Channel-wise cast of an 8-bit triplet into the floating model
(`RGB::<f64>::from`, exact). -/
def rgb_to_q (c : RGB Nat) : RGB ℚ := ⟨(c.r : ℚ), (c.g : ℚ), (c.b : ℚ)⟩

/-- The per-channel difference `RGB(r0 - r1, g0 - g1, b0 - b1)` computed
inside `quantize_palette`. -/
def rgb_sub (c p : RGB ℚ) : RGB ℚ := ⟨c.r - p.r, c.g - p.g, c.b - p.b⟩

/-- The L1 distance `abs_err` computed inside `quantize_palette`:
the sum of absolute per-channel differences. -/
def l1_dist (c p : RGB ℚ) : ℚ := |c.r - p.r| + |c.g - p.g| + |c.b - p.b|

/-- One iteration of the `quantize_palette` scan loop.  The running state is
`(min_abs_err, closest, min_err)` where `min_abs_err = none` models the
initial `f64::INFINITY` (every finite distance compares below it). -/
def qp_step (c : RGB ℚ) (st : Option ℚ × RGB ℚ × RGB ℚ) (p : RGB ℚ) :
    Option ℚ × RGB ℚ × RGB ℚ :=
  let abs_err := l1_dist c p
  match st.1 with
  | none => (some abs_err, p, rgb_sub c p)
  | some m => if abs_err < m then (some abs_err, p, rgb_sub c p) else st

/-- `quantize_palette` (`src/color/mod.rs`): scan the palette in order,
keeping the entry of strictly minimal L1 distance; `closest` and `min_err`
start from `RGB::default()`, i.e. `RGB(0, 0, 0)`. -/
def quantize_palette (palette : List (RGB Nat)) : RGB ℚ → RGB ℚ × RGB ℚ :=
  fun c =>
    let st := (palette.map rgb_to_q).foldl (qp_step c)
      (none, RGB.mk 0 0 0, RGB.mk 0 0 0)
    (st.2.1, st.2.2)

/-- Elementwise scalar product on a floating triplet.
Modelled from the spec: §4.1 defines the color model's arithmetic as
elementwise (the `RGB` operator impls live in `src/color/rgb.rs`, which is
absent from the snapshot). -/
def rgb_smul (c : RGB ℚ) (k : ℚ) : RGB ℚ := ⟨c.r * k, c.g * k, c.b * k⟩

/-- Elementwise division of a floating triplet by a scalar.
Modelled from the spec: §4.1 (elementwise scale; `src/color/rgb.rs` is
absent from the snapshot). -/
def rgb_div (c : RGB ℚ) (k : ℚ) : RGB ℚ := ⟨c.r / k, c.g / k, c.b / k⟩

/-- Elementwise addition of floating triplets.
Modelled from the spec: §4.1 (elementwise add; `src/color/rgb.rs` is
absent from the snapshot). -/
def rgb_add (c p : RGB ℚ) : RGB ℚ := ⟨c.r + p.r, c.g + p.g, c.b + p.b⟩

/-- `create_convert_quantized_to_palette_func` (`src/main.rs`): divide the
two palette colors by 255 once, then map a quantized scalar `x` to
`front * x + back * (255 - x)`. -/
def create_convert_quantized_to_palette_func (front back : RGB Nat) :
    ℚ → RGB ℚ :=
  let f : RGB ℚ := rgb_div (rgb_to_q front) 255
  let b : RGB ℚ := rgb_div (rgb_to_q back) 255
  fun x => rgb_add (rgb_smul f x) (rgb_smul b (255 - x))

/-- The linear blend the spec states for a custom palette: map the
quantized scalar `x` to `foreground * (x/255) + background * (1 - x/255)`,
elementwise.  This definition follows the spec's words, to be compared
with `create_convert_quantized_to_palette_func`. -/
def spec_blend (front back : RGB Nat) (x : ℚ) : RGB ℚ :=
  rgb_add (rgb_smul (rgb_to_q front) (x / 255))
    (rgb_smul (rgb_to_q back) (1 - x / 255))

/-- Whether a mode is palette-based, i.e. matched by the
`Mode::CGA | Mode::CustomPalette { .. }` arm of `_main` (in the
`color/mod.rs` rendering of `Mode`, the CGA mode is the known palette). -/
def Mode.is_palette_based : Mode → Bool
  | .knownPalette _ _ => true
  | .customPalette _ => true
  | _ => false

/-- The error behavior of `_main` (`src/main.rs`) on a configuration,
up to the point where dithering would start: `_main` first constructs the
uniform quantizer (`create_quantize_n_bits_func(opts.bit_depth)?`), then
dispatches on the color mode, whose first arm rejects a palette-based mode
with `bit_depth > 1` as `IncompatibleOptions`.  Returns the error `_main`
stops with, or `none` when it proceeds to dithering. -/
def main_error_check (mode : Mode) (bit_depth : Nat) : Option Error :=
  match create_quantize_n_bits_func bit_depth with
  | .error e => some e
  | .ok _ =>
    match mode with
    | .knownPalette _ _ | .customPalette _ =>
      if 1 < bit_depth then some .incompatibleOptions else none
    | _ => none

/-!  ## C8: bit-depth validation of the quantizer constructor -/

/-- C8: `create_quantize_n_bits_func n` fails with `BadBitDepth n` exactly
when `n` lies outside `1..=7`; the failure is in the `Except` value the
constructor returns (construction time), and for `n` in `1..=7` it returns
the total quantizer closure, which never fails per-call. -/
theorem create_quantize_bad_bit_depth (n : Nat) :
    (create_quantize_n_bits_func n = .error (.badBitDepth n) ↔ n = 0 ∨ 7 < n) ∧
    (1 ≤ n → n ≤ 7 →
      create_quantize_n_bits_func n = .ok (quantize_n_bits n)) := by
  constructor
  · constructor
    · intro h
      by_contra hc
      rw [create_quantize_n_bits_func, if_neg hc] at h
      exact Except.noConfusion h
    · intro h
      rw [create_quantize_n_bits_func, if_pos h]
  · intro h1 h7
    rw [create_quantize_n_bits_func, if_neg (by omega : ¬(n = 0 ∨ 7 < n))]

/-- Witness for C8 at the concrete depths 8 (rejected) and 3 (accepted). -/
theorem create_quantize_bad_bit_depth_witness :
    create_quantize_n_bits_func 8 = .error (.badBitDepth 8) ∧
    create_quantize_n_bits_func 3 = .ok (quantize_n_bits 3) :=
  ⟨(create_quantize_bad_bit_depth 8).1.mpr (by omega),
   (create_quantize_bad_bit_depth 3).2 (by omega) (by omega)⟩

/-!  ## C5: float-to-byte conversion -/

/-- C5 counterexample: at input 2.7 the code returns 2, while the integer
nearest to the clamped value is 3; `clamp_f64_to_u8` does not round to
nearest. -/
theorem clamp_f64_to_u8_not_round :
    clamp_f64_to_u8 (27 / 10) = 2 ∧
    round (min (255 : ℚ) (max 0 (27 / 10))) = 3 := by
  constructor
  · norm_num [clamp_f64_to_u8]; rfl
  · norm_num [round_eq]

/-- C5 (amended): `clamp_f64_to_u8` clamps into `[0,255]` and truncates
(the `as u8` cast takes the floor of the nonnegative remaining value), so
the result is the floor of the input clamped into `[0,255]`, not the
nearest integer. -/
theorem clamp_f64_to_u8_floor (x : ℚ) :
    clamp_f64_to_u8 x = (min 255 (max 0 ⌊x⌋)).toNat := by
  unfold clamp_f64_to_u8
  split_ifs with h1 h2
  · have h : (255 : ℤ) ≤ ⌊x⌋ := Int.le_floor.mpr (by exact_mod_cast h1.le)
    omega
  · have h : ⌊x⌋ < 0 := Int.floor_lt.mpr (by exact_mod_cast h2)
    omega
  · push_neg at h1 h2
    have hl : 0 ≤ ⌊x⌋ := Int.floor_nonneg.mpr h2
    have hu : ⌊x⌋ ≤ 255 := by
      have hx : (⌊x⌋ : ℚ) ≤ 255 := le_trans (Int.floor_le x) h1
      exact_mod_cast hx
    omega

/-!  ## C4: palette modes with multi-level depth -/

/-- C4 counterexample: the CGA palette with bit depth 8 (which is `> 1`)
makes the run fail with `BadBitDepth 8`, not `IncompatibleOptions`,
because `_main` constructs the uniform quantizer before the mode dispatch. -/
theorem palette_depth_counterexample :
    main_error_check Mode.CGA_PALETTE 8 = some (Error.badBitDepth 8) ∧
    Error.badBitDepth 8 ≠ Error.incompatibleOptions :=
  ⟨rfl, by decide⟩

/-- C4 (amended): for a palette-based mode (the known CGA palette or a
custom palette), a configured bit depth in `2..=7` fails with
`IncompatibleOptions` — the check precedes every dithering arm of `_main` —
while a depth above 7 fails with `BadBitDepth` from the quantizer
constructor that `_main` runs first. -/
theorem palette_depth_incompatible (mode : Mode) (depth : Nat)
    (hp : mode.is_palette_based = true) :
    (2 ≤ depth → depth ≤ 7 →
      main_error_check mode depth = some Error.incompatibleOptions) ∧
    (7 < depth →
      main_error_check mode depth = some (Error.badBitDepth depth)) := by
  constructor
  · intro h2 h7
    have hq : create_quantize_n_bits_func depth = .ok (quantize_n_bits depth) := by
      rw [create_quantize_n_bits_func, if_neg (by omega : ¬(depth = 0 ∨ 7 < depth))]
    cases mode <;>
      simp [main_error_check, hq, show 1 < depth by omega] <;>
      simp [Mode.is_palette_based] at hp
  · intro h7
    have hq : create_quantize_n_bits_func depth =
        .error (.badBitDepth depth) := by
      rw [create_quantize_n_bits_func, if_pos (Or.inr h7)]
    simp [main_error_check, hq]

/-- Witness for C4 (amended) at the CGA palette with depth 2 and a custom
palette with depth 8. -/
theorem palette_depth_incompatible_witness :
    main_error_check Mode.CGA_PALETTE 2 = some Error.incompatibleOptions ∧
    main_error_check (Mode.customPalette [cga.RED, cga.BLACK]) 8 =
      some (Error.badBitDepth 8) :=
  ⟨(palette_depth_incompatible Mode.CGA_PALETTE 2 rfl).1 (by omega) (by omega),
   (palette_depth_incompatible (Mode.customPalette [cga.RED, cga.BLACK]) 8 rfl).2
     (by omega)⟩

/-!  ## C9: color-mode token parsing -/

/-- C9: `Mode::from_str` uppercases its input before matching (first
conjunct, definitional); a token whose uppercase form is WHITE, BLACK or BW
parses to `BlackAndWhite` and never to a `SingleColor`; each of the
fourteen remaining CGA color names parses to `SingleColor` of the
corresponding CGA constant. -/
theorem from_str_names (s : String) :
    Mode.from_str s = Mode.match_upper s (to_ascii_uppercase s) ∧
    (to_ascii_uppercase s = "WHITE" ∨ to_ascii_uppercase s = "BLACK" ∨
        to_ascii_uppercase s = "BW" →
      Mode.from_str s = .ok .blackAndWhite ∧
        ∀ c, Mode.from_str s ≠ .ok (.singleColor c)) ∧
    (∀ p ∈ ([("BLUE", cga.BLUE), ("GREEN", cga.GREEN), ("CYAN", cga.CYAN),
        ("RED", cga.RED), ("MAGENTA", cga.MAGENTA), ("BROWN", cga.BROWN),
        ("LIGHT_GRAY", cga.LIGHT_GRAY), ("GRAY", cga.GRAY),
        ("LIGHT_BLUE", cga.LIGHT_BLUE), ("LIGHT_GREEN", cga.LIGHT_GREEN),
        ("LIGHT_CYAN", cga.LIGHT_CYAN), ("LIGHT_RED", cga.LIGHT_RED),
        ("LIGHT_MAGENTA", cga.LIGHT_MAGENTA), ("YELLOW", cga.YELLOW)] :
        List (String × RGB Nat)),
      to_ascii_uppercase s = p.1 →
        Mode.from_str s = .ok (.singleColor p.2)) := by
  refine ⟨rfl, ?_, ?_⟩
  · intro h
    have hbw : Mode.from_str s = .ok .blackAndWhite := by
      rcases h with h | h | h <;> rw [Mode.from_str, h] <;> rfl
    refine ⟨hbw, fun c h2 => ?_⟩
    rw [hbw] at h2
    exact Mode.noConfusion (Except.ok.inj h2)
  · intro p hmem h
    fin_cases hmem <;> rw [Mode.from_str, h] <;> rfl

/-- Witness for C9: a mixed-case WHITE token and a mixed-case LIGHT_CYAN
token. -/
theorem from_str_names_witness :
    Mode.from_str "White" = .ok .blackAndWhite ∧
    Mode.from_str "LigHT_CYAN" = .ok (.singleColor cga.LIGHT_CYAN) :=
  ⟨((from_str_names "White").2.1 (Or.inl rfl)).1,
   (from_str_names "LigHT_CYAN").2.2 ("LIGHT_CYAN", cga.LIGHT_CYAN)
     (by simp) rfl⟩

/-!  ## C7: custom-palette post-dither conversion -/

/-- C7: for every pair of palette colors and every quantized scalar `x`,
the conversion returned by `create_convert_quantized_to_palette_func`
computes exactly the spec's linear blend
`front * (x/255) + back * (1 - x/255)`. -/
theorem convert_quantized_is_blend (front back : RGB Nat) (x : ℚ) :
    create_convert_quantized_to_palette_func front back x =
      spec_blend front back x := by
  simp only [create_convert_quantized_to_palette_func, spec_blend, rgb_div,
    rgb_smul, rgb_add, rgb_to_q, RGB.mk.injEq]
  refine ⟨by ring, by ring, by ring⟩

/-!  ## C1, C2: the uniform quantizer -/

/-- The unclamped ceiling candidate `ceil` computed inside the quantizer:
`step * ceil(x / step)` with `step = 256 / n`. -/
def ceil_q (n : Nat) (x : ℚ) : ℚ :=
  ⌈x / (256 / (n : ℚ))⌉ * (256 / (n : ℚ))

/-- `quantize_n_bits` with its `let`s expanded (definitional). -/
lemma quantize_n_bits_eq (n : Nat) (x : ℚ) :
    quantize_n_bits n x =
      if x - ⌊x / (256 / (n : ℚ))⌋ * (256 / (n : ℚ)) <
          ⌈x / (256 / (n : ℚ))⌉ * (256 / (n : ℚ)) - x then
        (max (⌊x / (256 / (n : ℚ))⌋ * (256 / (n : ℚ))) 0,
          x - ⌊x / (256 / (n : ℚ))⌋ * (256 / (n : ℚ)))
      else
        (min 255 (⌈x / (256 / (n : ℚ))⌉ * (256 / (n : ℚ))),
          -(⌈x / (256 / (n : ℚ))⌉ * (256 / (n : ℚ)) - x)) :=
  rfl

/-- C1: for a level parameter in `1..=7` and a scalar in `[0,255]`, the
constructor returns the quantizer closure, its quantized value lies in
`[0,255]`, and the residual is `x - quantized`, except when the ceiling
candidate exceeded 255 and was clamped down to 255, in which case the
residual is `x` minus the unclamped ceiling. -/
theorem quantize_range_residual (n : Nat) (x : ℚ)
    (hn1 : 1 ≤ n) (hn7 : n ≤ 7) (hx0 : 0 ≤ x) (hx1 : x ≤ 255) :
    create_quantize_n_bits_func n = .ok (quantize_n_bits n) ∧
    0 ≤ (quantize_n_bits n x).1 ∧ (quantize_n_bits n x).1 ≤ 255 ∧
    ((quantize_n_bits n x).2 = x - (quantize_n_bits n x).1 ∨
      (255 < ceil_q n x ∧ (quantize_n_bits n x).1 = 255 ∧
        (quantize_n_bits n x).2 = x - ceil_q n x)) := by
  have hnq : (0 : ℚ) < (n : ℚ) := by exact_mod_cast hn1
  have hstep : (0 : ℚ) < 256 / (n : ℚ) := div_pos (by norm_num) hnq
  have hfloor_le : (⌊x / (256 / (n : ℚ))⌋ : ℚ) * (256 / (n : ℚ)) ≤ x := by
    calc (⌊x / (256 / (n : ℚ))⌋ : ℚ) * (256 / (n : ℚ))
        ≤ (x / (256 / (n : ℚ))) * (256 / (n : ℚ)) :=
          mul_le_mul_of_nonneg_right (Int.floor_le _) hstep.le
      _ = x := div_mul_cancel₀ x (ne_of_gt hstep)
  have hfloor_nonneg : (0 : ℚ) ≤ (⌊x / (256 / (n : ℚ))⌋ : ℚ) * (256 / (n : ℚ)) := by
    apply mul_nonneg _ hstep.le
    exact_mod_cast Int.floor_nonneg.mpr (div_nonneg hx0 hstep.le)
  have hceil_ge : x ≤ (⌈x / (256 / (n : ℚ))⌉ : ℚ) * (256 / (n : ℚ)) := by
    calc x = (x / (256 / (n : ℚ))) * (256 / (n : ℚ)) :=
          (div_mul_cancel₀ x (ne_of_gt hstep)).symm
      _ ≤ (⌈x / (256 / (n : ℚ))⌉ : ℚ) * (256 / (n : ℚ)) :=
          mul_le_mul_of_nonneg_right (Int.le_ceil _) hstep.le
  refine ⟨by rw [create_quantize_n_bits_func,
      if_neg (by omega : ¬(n = 0 ∨ 7 < n))], ?_⟩
  rw [quantize_n_bits_eq]
  split_ifs with hlt
  · refine ⟨?_, ?_, Or.inl ?_⟩
    · exact le_max_right _ 0
    · rw [max_eq_left hfloor_nonneg]
      exact le_trans hfloor_le hx1
    · rw [max_eq_left hfloor_nonneg]
  · refine ⟨?_, min_le_left _ _, ?_⟩
    · exact le_min (by norm_num) (le_trans hx0 hceil_ge)
    · rcases le_or_lt (⌈x / (256 / (n : ℚ))⌉ * (256 / (n : ℚ))) 255 with hc | hc
      · exact Or.inl (by rw [min_eq_right hc, neg_sub])
      · refine Or.inr ⟨?_, min_eq_left hc.le, by rw [neg_sub]; rfl⟩
        simpa [ceil_q] using hc

/-- Witness for C1 at `n = 7`, `x = 250`, which exercises the clamped
ceiling (`ceil_q 7 250 = 256 > 255`). -/
theorem quantize_range_residual_witness :
    0 ≤ (quantize_n_bits 7 250).1 ∧ (quantize_n_bits 7 250).1 ≤ 255 ∧
    ((quantize_n_bits 7 250).2 = 250 - (quantize_n_bits 7 250).1 ∨
      (255 < ceil_q 7 250 ∧ (quantize_n_bits 7 250).1 = 255 ∧
        (quantize_n_bits 7 250).2 = 250 - ceil_q 7 250)) :=
  (quantize_range_residual 7 250 (by omega) (by omega) (by norm_num)
    (by norm_num)).2

/-- With `n = 1`, an input in `[0,128)` falls to the floor candidate 0
(keeping its whole value as residual). -/
lemma quantize_one_below (x : ℚ) (h0 : 0 ≤ x) (h : x < 128) :
    quantize_n_bits 1 x = (0, x) := by
  rcases eq_or_lt_of_le h0 with h0' | h0'
  · rw [← h0']
    norm_num [quantize_n_bits_eq]
  · have hx256 : x / (256 / ((1 : Nat) : ℚ)) = x / 256 := by norm_num
    have hfl : ⌊x / (256 / ((1 : Nat) : ℚ))⌋ = 0 := by
      have hb : x / 256 < 1 := by
        rw [div_lt_one (by norm_num)]
        linarith
      rw [hx256, Int.floor_eq_iff]
      constructor
      · exact_mod_cast div_nonneg h0 (by norm_num)
      · push_cast
        linarith
    have hcl : ⌈x / (256 / ((1 : Nat) : ℚ))⌉ = 1 := by
      have hb : x / 256 ≤ 1 := by
        rw [div_le_one (by norm_num)]
        linarith
      rw [hx256, Int.ceil_eq_iff]
      constructor
      · push_cast
        linarith [div_pos h0' (by norm_num : (0:ℚ) < 256)]
      · push_cast
        linarith
    rw [quantize_n_bits_eq, hfl, hcl, if_pos (by push_cast; linarith)]
    norm_num

/-- With `n = 1`, an input in `[128,255]` rises to the ceiling candidate
256, clamped to 255, with residual `-(256 - x)`. -/
lemma quantize_one_above (x : ℚ) (h1 : 128 ≤ x) (h2 : x ≤ 255) :
    quantize_n_bits 1 x = (255, -(256 - x)) := by
  have hx256 : x / (256 / ((1 : Nat) : ℚ)) = x / 256 := by norm_num
  have hfl : ⌊x / (256 / ((1 : Nat) : ℚ))⌋ = 0 := by
    have hb : x / 256 < 1 := by
      rw [div_lt_one (by norm_num)]
      linarith
    rw [hx256, Int.floor_eq_iff]
    constructor
    · exact_mod_cast div_nonneg (by linarith) (by norm_num : (0:ℚ) ≤ 256)
    · push_cast
      linarith
  have hcl : ⌈x / (256 / ((1 : Nat) : ℚ))⌉ = 1 := by
    have hb : x / 256 ≤ 1 := by
      rw [div_le_one (by norm_num)]
      linarith
    rw [hx256, Int.ceil_eq_iff]
    constructor
    · push_cast
      linarith [div_pos (by linarith : (0:ℚ) < x) (by norm_num : (0:ℚ) < 256)]
    · push_cast
      linarith
  rw [quantize_n_bits_eq, hfl, hcl, if_neg (by push_cast; intro hc; linarith)]
  norm_num

/-- C2: with `n = 1` the quantizer is a hard threshold at 128: below it the
result is `(0, x)`, at or above it the result is `(255, -(256 - x))`; in
particular 10 quantizes to `(0, 10)`, and the end-to-end accumulator
`250 + 10 * 7/16 = 254.375` quantizes to 255. -/
theorem quantize_one_bit_threshold (x : ℚ) (h0 : 0 ≤ x) (h255 : x ≤ 255) :
    (x < 128 → quantize_n_bits 1 x = (0, x)) ∧
    (128 ≤ x → quantize_n_bits 1 x = (255, -(256 - x))) ∧
    quantize_n_bits 1 10 = (0, 10) ∧
    (250 + 10 * (7 / 16) : ℚ) = 2035 / 8 ∧
    quantize_n_bits 1 (2035 / 8) = (255, -(256 - 2035 / 8)) :=
  ⟨fun h => quantize_one_below x h0 h,
   fun h => quantize_one_above x h h255,
   quantize_one_below 10 (by norm_num) (by norm_num),
   by norm_num,
   quantize_one_above (2035 / 8) (by norm_num) (by norm_num)⟩

/-- Witness for C2 at `x = 10` (it also re-states the two concrete
end-to-end evaluations). -/
theorem quantize_one_bit_threshold_witness :
    quantize_n_bits 1 10 = (0, 10) ∧
    quantize_n_bits 1 (2035 / 8) = (255, -(256 - 2035 / 8)) :=
  ⟨((quantize_one_bit_threshold 10 (by norm_num) (by norm_num)).1 (by norm_num)),
   (quantize_one_bit_threshold 10 (by norm_num) (by norm_num)).2.2.2.2⟩

/-!  ## C6: custom two-color hexadecimal palettes

The hex-palette branch of the `--color` parser is code of this repository
that is missing from the snapshot: `src/color/mod.rs`'s `from_str` here
only matches the named tokens, while its `Error` type declares
`BadPaletteColor`/`CouldNotParsePalette`, `main.rs` consumes a
`CustomPalette { front, back }` mode that this `from_str` never builds, and
`src/opts.rs` documents the `"0xYYYYYY 0xZZZZZZ"` option.  The branch is
therefore modelled from the spec below. -/

/-- The value of one hexadecimal digit (either letter case), `none` for a
non-hex character. -/
def hex_digit_val (c : Char) : Option Nat :=
  if '0' ≤ c ∧ c ≤ '9' then some (c.toNat - 48)
  else if 'a' ≤ c ∧ c ≤ 'f' then some (c.toNat - 87)
  else if 'A' ≤ c ∧ c ≤ 'F' then some (c.toNat - 55)
  else none

/-- Accumulate hexadecimal digits left to right; `none` on the first
non-hex character. -/
def parse_hex_digits : List Char → Nat → Option Nat
  | [], acc => some acc
  | c :: cs, acc =>
    match hex_digit_val c with
    | none => none
    | some d => parse_hex_digits cs (16 * acc + d)

/-- Modelled from the spec: parse one `0xRRGGBB`-style hexadecimal token
the way Rust's `u32::from_str_radix` does after stripping an optional
`0x`/`0X` marker — `none` (malformed) on an empty digit string, on a
non-hex character, or on a value overflowing `u32`. -/
def parse_hex_u32 (s : String) : Option Nat :=
  let cs := s.data
  let body :=
    if cs.take 2 = ['0', 'x'] ∨ cs.take 2 = ['0', 'X'] then cs.drop 2 else cs
  if body = [] then none
  else
    match parse_hex_digits body 0 with
    | some n => if n < 2 ^ 32 then some n else none
    | none => none

/-- Split a 24-bit `0xRRGGBB` value into its three channel bytes. -/
def rgb_from_hex (n : Nat) : RGB Nat :=
  ⟨n / 65536 % 256, n / 256 % 256, n % 256⟩

/-- Modelled from the spec: parse one palette color token; a malformed hex
literal fails with `CouldNotParsePalette` (which in the source carries the
`ParseIntError`; here the token), a parsed value above `0xFFFFFF` fails
with `BadPaletteColor`. -/
def parse_palette_color (tok : String) : Except ColorError (RGB Nat) :=
  match parse_hex_u32 tok with
  | none => .error (.couldNotParsePalette tok)
  | some n =>
    if 0xFFFFFF < n then .error (.badPaletteColor n)
    else .ok (rgb_from_hex n)

/-- Modelled from the spec: the custom-palette branch of the `--color`
parse — exactly two whitespace-separated tokens, foreground first — builds
`CustomPalette [front, back]`. -/
def parse_custom_palette (toks : List String) : Except ColorError Mode :=
  match toks with
  | [t1, t2] =>
    match parse_palette_color t1 with
    | .error e => .error e
    | .ok front =>
      match parse_palette_color t2 with
      | .error e => .error e
      | .ok back => .ok (.customPalette [front, back])
  | other => .error (.unknownOption (String.intercalate " " other))

/-- Split a character list at every space (the behavior of splitting the
option string on the `" "` separator), accumulating the current token in
reverse. -/
def split_on_space (cs : List Char) (cur : List Char) : List String :=
  match cs with
  | [] => [String.mk cur.reverse]
  | c :: rest =>
    if c = ' ' then String.mk cur.reverse :: split_on_space rest []
    else split_on_space rest (c :: cur)

/-- Modelled from the spec: the full `--color` parse — the named tokens of
`Mode::from_str` first, otherwise the two-token hexadecimal custom
palette. -/
def from_str_spec (s : String) : Except ColorError Mode :=
  match Mode.from_str s with
  | .ok m => .ok m
  | .error _ => parse_custom_palette (split_on_space s.data [])

/-- C6: two well-formed in-range hex tokens parse to
`CustomPalette [front, back]`; a token whose value exceeds `0xFFFFFF`
fails with `BadPaletteColor` of that value; a malformed token fails with
`CouldNotParsePalette`; and a concrete two-token `--color` string parses
end-to-end into the custom-palette mode. -/
theorem custom_palette_parse (t1 t2 : String) :
    (∀ n1 n2 : Nat, parse_hex_u32 t1 = some n1 → n1 ≤ 0xFFFFFF →
      parse_hex_u32 t2 = some n2 → n2 ≤ 0xFFFFFF →
      parse_custom_palette [t1, t2] =
        .ok (.customPalette [rgb_from_hex n1, rgb_from_hex n2])) ∧
    (∀ n1 : Nat, parse_hex_u32 t1 = some n1 → 0xFFFFFF < n1 →
      parse_custom_palette [t1, t2] = .error (.badPaletteColor n1)) ∧
    (parse_hex_u32 t1 = none →
      parse_custom_palette [t1, t2] = .error (.couldNotParsePalette t1)) ∧
    from_str_spec "0x00ff00 0x0000aa" =
      .ok (.customPalette [⟨0, 255, 0⟩, ⟨0, 0, 170⟩]) := by
  refine ⟨?_, ?_, ?_, ?_⟩
  · intro n1 n2 h1 hr1 h2 hr2
    simp [parse_custom_palette, parse_palette_color, h1, h2,
      if_neg (not_lt.mpr hr1), if_neg (not_lt.mpr hr2)]
  · intro n1 h1 hr1
    simp [parse_custom_palette, parse_palette_color, h1, if_pos hr1]
  · intro h1
    simp [parse_custom_palette, parse_palette_color, h1]
  · rfl

/-- Witness for C6 at a concrete green/blue custom palette. -/
theorem custom_palette_parse_witness :
    parse_custom_palette ["0x00FF00", "0x0000AA"] =
      .ok (.customPalette [RGB.mk 0 255 0, RGB.mk 0 0 170]) :=
  (custom_palette_parse "0x00FF00" "0x0000AA").1 0x00FF00 0x0000AA rfl
    (by norm_num) rfl (by norm_num)

/-!  ## C3, C10: the nearest-palette quantizer -/

/-- The running `closest` value of the `quantize_palette` scan, seeded with
`q0`: keep the current entry unless a strictly closer one appears. -/
def sel (c q0 : RGB ℚ) (l : List (RGB ℚ)) : RGB ℚ :=
  l.foldl (fun q p => if l1_dist c p < l1_dist c q then p else q) q0

/-- Once the scan state holds a real entry `q0` (distance, entry,
residual), folding the rest of the palette keeps it in that shape, with the
entry tracked by `sel`. -/
lemma qp_fold_eq (c : RGB ℚ) (l : List (RGB ℚ)) : ∀ q0 : RGB ℚ,
    l.foldl (qp_step c) (some (l1_dist c q0), q0, rgb_sub c q0) =
      (some (l1_dist c (sel c q0 l)), sel c q0 l,
        rgb_sub c (sel c q0 l)) := by
  induction l with
  | nil =>
    intro q0
    simp [sel]
  | cons a t ih =>
    intro q0
    rw [List.foldl_cons]
    have hstep : qp_step c (some (l1_dist c q0), q0, rgb_sub c q0) a =
        (some (l1_dist c (if l1_dist c a < l1_dist c q0 then a else q0)),
          (if l1_dist c a < l1_dist c q0 then a else q0),
          rgb_sub c (if l1_dist c a < l1_dist c q0 then a else q0)) := by
      by_cases h : l1_dist c a < l1_dist c q0
      · simp [qp_step, h]
      · simp [qp_step, h]
    rw [hstep]
    exact ih _

/-- What `sel` selects: a value no farther than the seed and than any list
entry and, unless it is the seed itself, the entry at an index all of whose
predecessors are strictly farther (the first minimizer; ties keep the
earlier entry because the scan updates only on strict decrease). -/
lemma sel_spec (c : RGB ℚ) (l : List (RGB ℚ)) : ∀ q0 : RGB ℚ,
    l1_dist c (sel c q0 l) ≤ l1_dist c q0 ∧
    (∀ x ∈ l, l1_dist c (sel c q0 l) ≤ l1_dist c x) ∧
    (sel c q0 l = q0 ∨
      ∃ i, ∃ h : i < l.length, sel c q0 l = l.get ⟨i, h⟩ ∧
        l1_dist c (sel c q0 l) < l1_dist c q0 ∧
        ∀ j (hj : j < i), l1_dist c (sel c q0 l) <
          l1_dist c (l.get ⟨j, Nat.lt_trans hj h⟩)) := by
  induction l with
  | nil =>
    intro q0
    exact ⟨le_refl _, by simp, Or.inl rfl⟩
  | cons a t ih =>
    intro q0
    by_cases h : l1_dist c a < l1_dist c q0
    · have e : sel c q0 (a :: t) = sel c a t := by
        simp [sel, List.foldl_cons, if_pos h]
      obtain ⟨ih1, ih2, ih3⟩ := ih a
      rw [e]
      refine ⟨le_of_lt (lt_of_le_of_lt ih1 h), ?_, ?_⟩
      · intro x hx
        rcases List.mem_cons.mp hx with rfl | hx
        · exact ih1
        · exact ih2 x hx
      · rcases ih3 with heq | ⟨i, hi, heq, hlt, hearly⟩
        · refine Or.inr ⟨0, by simp, heq, ?_, ?_⟩
          · rw [heq]; exact h
          · intro j hj
            exact absurd hj (Nat.not_lt_zero j)
        · refine Or.inr ⟨i + 1, by simpa using hi, heq, lt_trans hlt h, ?_⟩
          intro j hj
          cases j with
          | zero => exact hlt
          | succ k => exact hearly k (Nat.lt_of_succ_lt_succ hj)
    · have e : sel c q0 (a :: t) = sel c q0 t := by
        simp [sel, List.foldl_cons, if_neg h]
      obtain ⟨ih1, ih2, ih3⟩ := ih q0
      rw [e]
      have hq0a : l1_dist c q0 ≤ l1_dist c a := not_lt.mp h
      refine ⟨ih1, ?_, ?_⟩
      · intro x hx
        rcases List.mem_cons.mp hx with rfl | hx
        · exact le_trans ih1 hq0a
        · exact ih2 x hx
      · rcases ih3 with heq | ⟨i, hi, heq, hlt, hearly⟩
        · exact Or.inl heq
        · refine Or.inr ⟨i + 1, by simpa using hi, heq, hlt, ?_⟩
          intro j hj
          cases j with
          | zero => exact lt_of_lt_of_le hlt hq0a
          | succ k => exact hearly k (Nat.lt_of_succ_lt_succ hj)

/-- On a nonempty palette, `quantize_palette` is `sel` seeded with the
first entry, paired with its residual. -/
lemma quantize_palette_cons (p : RGB Nat) (ps : List (RGB Nat)) (c : RGB ℚ) :
    quantize_palette (p :: ps) c =
      (sel c (rgb_to_q p) (ps.map rgb_to_q),
        rgb_sub c (sel c (rgb_to_q p) (ps.map rgb_to_q))) := by
  have h0 : qp_step c (none, RGB.mk 0 0 0, RGB.mk 0 0 0) (rgb_to_q p) =
      (some (l1_dist c (rgb_to_q p)), rgb_to_q p, rgb_sub c (rgb_to_q p)) :=
    rfl
  simp only [quantize_palette]
  rw [List.map_cons, List.foldl_cons, h0, qp_fold_eq]

/-- C3: on a nonempty palette, the quantized color is the palette entry at
an index `i` that attains the minimal L1 distance to the input while every
earlier entry is strictly farther (the first minimizer wins ties, since the
scan updates only on a strictly smaller distance), and the residual is the
per-channel difference `input - match`. -/
theorem quantize_palette_first_min (palette : List (RGB Nat)) (c : RGB ℚ)
    (hne : palette ≠ []) :
    ∃ i, ∃ h : i < palette.length,
      (quantize_palette palette c).1 = rgb_to_q (palette.get ⟨i, h⟩) ∧
      (∀ j (hj : j < palette.length),
        l1_dist c ((quantize_palette palette c).1) ≤
          l1_dist c (rgb_to_q (palette.get ⟨j, hj⟩))) ∧
      (∀ j (hj : j < i),
        l1_dist c ((quantize_palette palette c).1) <
          l1_dist c (rgb_to_q (palette.get ⟨j, Nat.lt_trans hj h⟩))) ∧
      (quantize_palette palette c).2 =
        rgb_sub c ((quantize_palette palette c).1) := by
  match palette with
  | p :: ps =>
    rw [quantize_palette_cons]
    dsimp only
    obtain ⟨h1, h2, h3⟩ := sel_spec c (ps.map rgb_to_q) (rgb_to_q p)
    have hmem : ∀ (k : Nat) (hk : k < ps.length),
        rgb_to_q (ps.get ⟨k, hk⟩) ∈ ps.map rgb_to_q := by
      intro k hk
      exact List.mem_map_of_mem rgb_to_q (ps.get_mem k hk)
    have hget : ∀ (k : Nat) (hk : k < ps.length)
        (hk' : k < (ps.map rgb_to_q).length),
        (ps.map rgb_to_q).get ⟨k, hk'⟩ = rgb_to_q (ps.get ⟨k, hk⟩) := by
      intro k hk hk'
      simp
    rcases h3 with heq | ⟨i, hi, heq, hlt, hearly⟩
    · refine ⟨0, by simp, heq, ?_, ?_, rfl⟩
      · intro j hj
        cases j with
        | zero =>
          exact le_of_eq (congrArg (l1_dist c) heq)
        | succ k =>
          exact h2 _ (hmem k (Nat.lt_of_succ_lt_succ hj))
      · intro j hj
        exact absurd hj (Nat.not_lt_zero j)
    · have hi' : i < ps.length := by simpa using hi
      refine ⟨i + 1, by simpa using Nat.succ_lt_succ hi', ?_, ?_, ?_, rfl⟩
      · rw [heq, hget i hi' hi]
        rfl
      · intro j hj
        cases j with
        | zero => exact le_of_lt hlt
        | succ k =>
          exact h2 _ (hmem k (Nat.lt_of_succ_lt_succ hj))
      · intro j hj
        cases j with
        | zero => exact hlt
        | succ k =>
          have hk : k < i := Nat.lt_of_succ_lt_succ hj
          have := hearly k hk
          rw [hget k (Nat.lt_trans hk hi') (Nat.lt_trans hk hi)] at this
          exact this

/-- Witness for C3 on a concrete two-entry palette and input. -/
theorem quantize_palette_first_min_witness :
    ∃ i, ∃ h : i < ([cga.RED, cga.BLUE] : List (RGB Nat)).length,
      (quantize_palette [cga.RED, cga.BLUE] ⟨200, 10, 10⟩).1 =
        rgb_to_q (([cga.RED, cga.BLUE] : List (RGB Nat)).get ⟨i, h⟩) ∧
      (∀ j (hj : j < ([cga.RED, cga.BLUE] : List (RGB Nat)).length),
        l1_dist ⟨200, 10, 10⟩
            ((quantize_palette [cga.RED, cga.BLUE] ⟨200, 10, 10⟩).1) ≤
          l1_dist ⟨200, 10, 10⟩
            (rgb_to_q (([cga.RED, cga.BLUE] : List (RGB Nat)).get ⟨j, hj⟩))) ∧
      (∀ j (hj : j < i),
        l1_dist ⟨200, 10, 10⟩
            ((quantize_palette [cga.RED, cga.BLUE] ⟨200, 10, 10⟩).1) <
          l1_dist ⟨200, 10, 10⟩
            (rgb_to_q (([cga.RED, cga.BLUE] : List (RGB Nat)).get
              ⟨j, Nat.lt_trans hj h⟩))) ∧
      (quantize_palette [cga.RED, cga.BLUE] ⟨200, 10, 10⟩).2 =
        rgb_sub ⟨200, 10, 10⟩
          ((quantize_palette [cga.RED, cga.BLUE] ⟨200, 10, 10⟩).1) :=
  quantize_palette_first_min [cga.RED, cga.BLUE] ⟨200, 10, 10⟩ (by simp)

/-- C10: applied to an empty palette — the non-emptiness precondition from
the specification is never
checked — the quantizer returns the default black color and zero residual
for every input, a value that is not a member of the (empty) palette. -/
theorem quantize_palette_empty (c : RGB ℚ) :
    quantize_palette [] c = (RGB.mk 0 0 0, RGB.mk 0 0 0) ∧
    (quantize_palette [] c).1 ∉ (([] : List (RGB Nat)).map rgb_to_q) :=
  ⟨rfl, by simp⟩

end Dither
